import Mathlib

/-!
Verification of the RTCP session-maintenance core (RFC 3550 section 6).

The definitions below are a shallow embedding of `src/rtcp/state.rs`, the
final and authoritative revision of the module.  Machine integers (`i32`,
`i64`) are modelled as `Int`; the `time` crate's `SteadyTime` and `Duration`
are modelled as `Int` microsecond counts; `f32`/`f64` values are modelled as
exact unnormalized fractions (`Frac`) so that every definition evaluates
inside the kernel, with `toQ : Frac → ℚ` giving their rational value.
Rust's `as i64` cast of a nonnegative fractional value is truncation toward
zero, modelled by `rtruncF`.  A Rust `panic` (the `expect` call in
`pkt_send_notify`) is modelled by an `Option` result, `none` meaning the
call aborts.  The clock reading taken by `SteadyTime::now()` and the random
sample drawn by `random::<Closed01<f64>>()` are passed as explicit
parameters.
-/

namespace Rtcp

/-- An exact, unnormalized fraction: the value `num / den`.  Used to model
`f32`/`f64` quantities of the source exactly.  All fractions built by the
embedding have positive denominators. -/
structure Frac where
  num : Int
  den : Int
deriving DecidableEq

/-- The rational value of a fraction. -/
def toQ (x : Frac) : ℚ := (x.num : ℚ) / (x.den : ℚ)

/-- An integer as a fraction. -/
def ofInt (n : Int) : Frac := ⟨n, 1⟩

/-- Fraction multiplication. -/
def fmul (a b : Frac) : Frac := ⟨a.num * b.num, a.den * b.den⟩

/-- Fraction addition. -/
def fadd (a b : Frac) : Frac := ⟨a.num * b.den + b.num * a.den, a.den * b.den⟩

/-- Fraction division. -/
def fdivF (a b : Frac) : Frac := ⟨a.num * b.den, a.den * b.num⟩

/-- Comparison of fractions by cross multiplication; matches `<=` on the
rational values whenever both denominators are positive. -/
def fle (a b : Frac) : Bool := decide (a.num * b.den ≤ b.num * a.den)

/-- Integer division truncating toward zero, the semantics of Rust's `/` on
machine integers and of `as i64` applied to a quotient. -/
def tdivZ (a b : Int) : Int := if 0 ≤ a then a / b else -((-a) / b)

/-- The value of a fraction cast `as i64`: truncation toward zero. -/
def rtruncF (x : Frac) : Int := tdivZ x.num x.den

/-- `i64::MAX`, substituted by the source when `Duration.num_microseconds`
overflows. -/
def i64Max : Int := 9223372036854775807

/-- `enum PacketType` from `src/rtcp/state.rs`. -/
inductive PacketType where
  | SendReport
  | ReceiveReport
  | SourceDescription
  | Bye
  | App
  | Rtp
deriving DecidableEq

/-- `enum MemberState` from `src/rtcp/state.rs`. -/
inductive MemberState where
  | Listening
  | Sending
  | Bye
deriving DecidableEq

/-- A synchronization-source identifier (`u32` in the source). -/
abbrev Ssrc := Nat

/-- A contributing-source identifier (`u32` in the source). -/
abbrev Csrc := Nat

/-- `struct Member` from `src/rtcp/state.rs`. -/
structure Member where
  id : Ssrc
  cname : Option String
  status : Option MemberState
  intervals : Int
deriving DecidableEq

/-- `struct State` from `src/rtcp/state.rs`.  `tp`, `tc`, `tn` are steady
clock readings in microseconds; the `HashMap<Ssrc, Member>` is modelled as
an association list with unique keys. -/
structure State where
  tp : Int
  tc : Int
  tn : Int
  pmembers : Int
  members : Int
  senders : Int
  rtcp_bw : Int
  we_sent : Bool
  avg_rtcp_size : Frac
  initial : Bool
  member_table : List (Ssrc × Member)
deriving DecidableEq

/-- `HashMap::get` on the member table. -/
def lookupMember : List (Ssrc × Member) → Ssrc → Option Member
  | [], _ => none
  | (k, m) :: t, id => if k = id then some m else lookupMember t id

/-- `HashMap::insert` on the member table: replaces the entry with the same
key, or appends a new entry. -/
def insertMember : List (Ssrc × Member) → Ssrc → Member → List (Ssrc × Member)
  | [], id, m => [(id, m)]
  | (k, m') :: t, id, m =>
      if k = id then (id, m) :: t else (k, m') :: insertMember t id m

/-- `State::update_avg_packet_size`:
`(1.0 / 16.0) * size as f32 + (15.0 / 16.0) * self.avg_rtcp_size`. -/
def updateAvgPacketSize (s : State) (size : Int) : Frac :=
  fadd (fmul ⟨1, 16⟩ (ofInt size)) (fmul ⟨15, 16⟩ s.avg_rtcp_size)

/-- The `t_min` of `State::tx_interval`: `Duration::milliseconds(2500)` when
`initial`, else `Duration::milliseconds(5000)`, in microseconds. -/
def tMin (s : State) : Int := if s.initial then 2500000 else 5000000

/-- The `c_times_n` of `State::tx_interval`: a branch-dependent `f32`
expression cast `as i64` and multiplied by an `i64` population count.  The
cast of the fractional part is truncation toward zero. -/
def cTimesN (s : State) : Int :=
  if fle (ofInt s.senders) (fmul ⟨25, 100⟩ (ofInt s.members)) then
    if s.we_sent then
      rtruncF (fmul (fmul (fdivF s.avg_rtcp_size (ofInt s.rtcp_bw)) ⟨25, 100⟩)
                 (ofInt 1000000)) * s.senders
    else
      rtruncF (fmul (fmul (fdivF s.avg_rtcp_size (ofInt s.rtcp_bw)) ⟨75, 100⟩)
                 (ofInt 1000000)) * (s.members - s.senders)
  else
    rtruncF (fmul (fdivF s.avg_rtcp_size (ofInt s.rtcp_bw)) (ofInt 1000000)) *
      s.members

/-- The `t_d` of `State::tx_interval`: `cmp::max(t_min, c_times_n)`. -/
def tD (s : State) : Int := max (tMin s) (cTimesN s)

/-- The `t_d_micros` of `State::tx_interval`: `t_d.num_microseconds()`, with
`None` (overflow) replaced by `i64::MAX`. -/
def tdMicros (s : State) : Int := if tD s ≤ i64Max then tD s else i64Max

/-- `State::tx_interval`, with the `Closed01<f64>` random sample `q` passed
explicitly.  Computes
`t_rand = t_d_micros / 2.0 + rand * t_d_micros` and returns
`(t_rand / 1.21828) as i64` microseconds. -/
def txInterval (s : State) (q : Frac) : Int :=
  rtruncF (fdivF (fadd (fdivF (ofInt (tdMicros s)) (ofInt 2))
                    (fmul q (ofInt (tdMicros s))))
             ⟨121828, 100000⟩)

/-- `State::initialize` (renamed `initSession`, `initialize` being a Lean keyword), with the `SteadyTime::now()` reading `now` and the
random sample `q` used by the initial `tx_interval` call passed
explicitly. -/
def initSession (our_ssrc : Ssrc) (bandwidth : Int) (pkt_size : Int)
    (now : Int) (q : Frac) : State :=
  let result : State :=
    { tp := now
      tc := now
      tn := now
      pmembers := 1
      members := 1
      senders := 0
      rtcp_bw := bandwidth
      we_sent := false
      avg_rtcp_size := ofInt pkt_size
      initial := true
      member_table := [] }
  let result :=
    { result with
        member_table :=
          insertMember result.member_table our_ssrc
            ⟨our_ssrc, none, some MemberState.Listening, 0⟩ }
  { result with tn := result.tc + txInterval result q }

/-- `State::reverse_reconsideration`.  Note that the source multiplies the
pending `Duration`s by `self.members / self.pmembers`, an `i32` integer
division. -/
def reverse_reconsideration (s : State) : State :=
  if s.members < s.pmembers then
    { s with
        tn := s.tc + (s.tn - s.tc) * tdivZ s.members s.pmembers
        tp := s.tc - (s.tc - s.tp) * tdivZ s.members s.pmembers
        pmembers := s.members }
  else s

/-- The `PacketType::Bye` arm of `State::pkt_recv_notify`, before the
`reverse_reconsideration` call. -/
def byeUpdate (s : State) (ssrc : Ssrc) : State :=
  match lookupMember s.member_table ssrc with
  | none => s
  | some member =>
      match member.status with
      | some MemberState.Listening =>
          { s with
              member_table :=
                insertMember s.member_table ssrc
                  { member with status := some MemberState.Bye }
              members := s.members - 1 }
      | some MemberState.Sending =>
          { s with
              member_table :=
                insertMember s.member_table ssrc
                  { member with status := some MemberState.Bye }
              members := s.members - 1
              senders := s.senders - 1 }
      | _ => s

/-- `State::update_member_status`. -/
def update_member_status (s : State) (id : Ssrc) (is_sender : Bool) : State :=
  match lookupMember s.member_table id with
  | some member =>
      match member.status with
      | none =>
          { s with
              member_table :=
                insertMember s.member_table id
                  { member with intervals := 0,
                                status := some MemberState.Listening }
              members := s.members + 1 }
      | some _ =>
          { s with
              member_table :=
                insertMember s.member_table id
                  { member with intervals := 0 } }
  | none =>
      if is_sender then
        { s with
            member_table :=
              insertMember s.member_table id
                ⟨id, none, some MemberState.Sending, 0⟩
            members := s.members + 1
            senders := s.senders + 1 }
      else
        { s with
            member_table :=
              insertMember s.member_table id ⟨id, none, none, 0⟩ }

/-- `State::pkt_recv_notify`. -/
def pkt_recv_notify (s : State) (packet_type : PacketType) (packet_size : Int)
    (ssrc : Ssrc) (csrcs : List Csrc) : State :=
  let s1 :=
    match packet_type with
    | PacketType.Bye => reverse_reconsideration (byeUpdate s ssrc)
    | PacketType.Rtp =>
        List.foldl (fun st ident => update_member_status st ident false)
          (update_member_status s ssrc true) csrcs
    | _ =>
        List.foldl (fun st ident => update_member_status st ident false)
          (update_member_status s ssrc false) csrcs
  { s1 with avg_rtcp_size := updateAvgPacketSize s1 packet_size }

/-- `State::tx_timer_expire`, with the two random samples of the two
`tx_interval` calls passed explicitly.  The returned `Bool` is Modelled from
the spec: the source leaves the host signalling as a `TODO` comment, and per
the spec the host is signalled to transmit a control packet now exactly in
the `tp + t <= tc` branch. -/
def tx_timer_expire (s : State) (q1 q2 : Frac) : State × Bool :=
  let t := txInterval s q1
  if s.tp + t ≤ s.tc then
    ({ s with
         tp := s.tc
         tn := s.tc + txInterval s q2
         pmembers := s.members }, true)
  else
    ({ s with tn := s.tp + t, pmembers := s.members }, false)

/-- `State::pkt_send_notify`.  The `expect` call on the member-table lookup
is modelled by returning `none` (the call panics) when the local Ssrc is
absent. -/
def pkt_send_notify (s : State) (packet_type : Option PacketType)
    (packet_size : Int) (our_ssrc : Ssrc) : Option State :=
  let s1 := { s with initial := false }
  let s2 := { s1 with avg_rtcp_size := updateAvgPacketSize s1 packet_size }
  let s3? :=
    match packet_type with
    | some PacketType.Rtp =>
        let s3 :=
          if s2.we_sent = false then
            { s2 with we_sent := true, senders := s2.senders + 1 }
          else s2
        match lookupMember s3.member_table our_ssrc with
        | none => none
        | some sender =>
            some { s3 with
                     member_table :=
                       insertMember s3.member_table our_ssrc
                         { sender with intervals := 0 } }
    | _ => some s2
  Option.map reverse_reconsideration s3?

/-- `State::leave_session`: no state mutation.  The returned `Bool` is
Modelled from the spec: the source leaves the host signalling as a `TODO`
comment, and per the spec the host is signalled to transmit a Bye exactly
when `members < 50`. -/
def leave_session (s : State) : State × Bool :=
  (s, decide (s.members < 50))

/-- One external event fed to the session state machine.  Send events use
the session's own Ssrc, timer events carry the two random samples consumed
by `tx_timer_expire`. -/
inductive Event where
  | recv (pt : PacketType) (size : Int) (ssrc : Ssrc) (csrcs : List Csrc)
  | send (pt : Option PacketType) (size : Int)
  | timer (q1 q2 : Frac)
  | leave
deriving DecidableEq

/-- Whether an event is a received Bye packet carrying the local Ssrc. -/
def isLocalBye (our : Ssrc) : Event → Bool
  | Event.recv PacketType.Bye _ ssrc _ => decide (ssrc = our)
  | _ => false

/-- One handler invocation; `none` means the handler panicked. -/
def step (our : Ssrc) (s : State) : Event → Option State
  | Event.recv pt size ssrc csrcs => some (pkt_recv_notify s pt size ssrc csrcs)
  | Event.send pt size => pkt_send_notify s pt size our
  | Event.timer q1 q2 => some (tx_timer_expire s q1 q2).1
  | Event.leave => some (leave_session s).1

/-- A finite sequence of handler invocations. -/
def run (our : Ssrc) (s : State) : List Event → Option State
  | [] => some s
  | e :: es =>
      match step our s e with
      | none => none
      | some s' => run our s' es

/-- Weight of a member status in the validated-member count: `Listening`
and `Sending` members are counted. -/
def wM : Option MemberState → Int
  | some MemberState.Listening => 1
  | some MemberState.Sending => 1
  | _ => 0

/-- Weight of a member status in the sender count: `Sending` members are
counted. -/
def wS : Option MemberState → Int
  | some MemberState.Sending => 1
  | _ => 0

/-- Number of validated (Listening or Sending) members in the table. -/
def cM : List (Ssrc × Member) → Int
  | [] => 0
  | (_, m) :: t => wM m.status + cM t

/-- Number of Sending members in the table. -/
def cS : List (Ssrc × Member) → Int
  | [] => 0
  | (_, m) :: t => wS m.status + cS t

/-- The inductive invariant of the session state: the `members` counter
counts the validated table entries, the `senders` counter counts the
Sending entries plus one when the local application has sent media, and the
local participant is present in the table with status `Listening`. -/
def Inv (our : Ssrc) (s : State) : Prop :=
  s.members = cM s.member_table ∧
  s.senders = cS s.member_table + (if s.we_sent then 1 else 0) ∧
  ∃ m, lookupMember s.member_table our = some m ∧
       m.status = some MemberState.Listening

/-- Follows the spec's words for the section 4.2 quantity `C' * n`, in
microseconds, with exact rational arithmetic. -/
def specCn (s : State) : ℚ :=
  if (s.senders : ℚ) ≤ 0.25 * (s.members : ℚ) then
    if s.we_sent then
      0.25 * (toQ s.avg_rtcp_size / (s.rtcp_bw : ℚ)) * 1000000 * (s.senders : ℚ)
    else
      0.75 * (toQ s.avg_rtcp_size / (s.rtcp_bw : ℚ)) * 1000000 *
        ((s.members : ℚ) - (s.senders : ℚ))
  else
    (toQ s.avg_rtcp_size / (s.rtcp_bw : ℚ)) * 1000000 * (s.members : ℚ)

/-- Follows the spec's words for `t_d = max(t_min, C_times_n)`, in
microseconds, with exact rational arithmetic. -/
def specTd (s : State) : ℚ := max ((tMin s : Int) : ℚ) (specCn s)

/-- A concrete session state exercising reverse reconsideration: one member
remains out of a previous estimate of two, the next send is scheduled ten
seconds from now, and the last send was four seconds ago. -/
def rrState : State :=
  { tp := 6000000
    tc := 10000000
    tn := 20000000
    pmembers := 2
    members := 1
    senders := 0
    rtcp_bw := 8000
    we_sent := false
    avg_rtcp_size := ofInt 200
    initial := false
    member_table := [(1, ⟨1, none, some MemberState.Listening, 0⟩)] }

/-- A concrete session state with two validated listening members, used to
exercise the Bye handling at a concrete input. -/
def listState : State :=
  { tp := 0
    tc := 0
    tn := 0
    pmembers := 2
    members := 2
    senders := 0
    rtcp_bw := 8000
    we_sent := false
    avg_rtcp_size := ofInt 200
    initial := false
    member_table := [(1, ⟨1, none, some MemberState.Listening, 0⟩),
                     (2, ⟨2, none, some MemberState.Listening, 0⟩)] }

/-- The session state produced by `initialize(ssrc=1, bandwidth=8000,
pkt_size=200)` with clock reading 0 and random sample 0. -/
def baseState : State := initSession 1 8000 200 0 (ofInt 0)

/-- `baseState` after a SendReport of size 100 from the unknown Ssrc 2:
first contact, inserted unvalidated. -/
def c5sA : State :=
  pkt_recv_notify baseState PacketType.SendReport 100 2 []

/-- `c5sA` after Rtp media of size 100 arrives from the still-unvalidated
Ssrc 2. -/
def c5sB : State := pkt_recv_notify c5sA PacketType.Rtp 100 2 []

/-- `baseState` after Rtp media of size 160 from the unknown Ssrc 2 (the
spec's end-to-end scenario, second step). -/
def s9b : State := pkt_recv_notify baseState PacketType.Rtp 160 2 []

/-- `s9b` after a Bye of size 50 from Ssrc 2 (the spec's end-to-end
scenario, third step). -/
def s9c : State := pkt_recv_notify s9b PacketType.Bye 50 2 []

/-- A received Bye carrying the local Ssrc followed by a local Rtp send. -/
def byeThenSend : List Event :=
  [Event.recv PacketType.Bye 50 1 [],
   Event.send (some PacketType.Rtp) 100]

theorem lookup_insertMember_self :
    ∀ (t : List (Ssrc × Member)) (id : Ssrc) (m : Member),
      lookupMember (insertMember t id m) id = some m
  | [], id, m => by simp [insertMember, lookupMember]
  | (k, m') :: t, id, m => by
      by_cases hk : k = id
      · simp [insertMember, hk, lookupMember]
      · simp [insertMember, hk, lookupMember,
          lookup_insertMember_self t id m]

theorem lookup_insertMember_ne :
    ∀ (t : List (Ssrc × Member)) (id j : Ssrc) (m : Member), j ≠ id →
      lookupMember (insertMember t id m) j = lookupMember t j
  | [], id, j, m, h => by simp [insertMember, lookupMember, Ne.symm h]
  | (k, m') :: t, id, j, m, h => by
      by_cases hk : k = id
      · subst hk
        simp [insertMember, lookupMember, h, Ne.symm h]
      · simp only [insertMember, if_neg hk, lookupMember]
        by_cases hj : k = j
        · simp [hj]
        · simp [hj, lookup_insertMember_ne t id j m h]

theorem wM_nonneg (st : Option MemberState) : 0 ≤ wM st := by
  cases st with
  | none => simp [wM]
  | some v => cases v <;> simp [wM]

theorem wS_nonneg (st : Option MemberState) : 0 ≤ wS st := by
  cases st with
  | none => simp [wS]
  | some v => cases v <;> simp [wS]

theorem wS_le_wM (st : Option MemberState) : wS st ≤ wM st := by
  cases st with
  | none => simp [wS, wM]
  | some v => cases v <;> simp [wS, wM]

theorem cM_nonneg : ∀ t : List (Ssrc × Member), 0 ≤ cM t
  | [] => le_refl 0
  | (_, m) :: t => by
      have h1 := wM_nonneg m.status
      have h2 := cM_nonneg t
      simp only [cM]; omega

theorem cS_nonneg : ∀ t : List (Ssrc × Member), 0 ≤ cS t
  | [] => le_refl 0
  | (_, m) :: t => by
      have h1 := wS_nonneg m.status
      have h2 := cS_nonneg t
      simp only [cS]; omega

theorem cS_le_cM : ∀ t : List (Ssrc × Member), cS t ≤ cM t
  | [] => le_refl 0
  | (_, m) :: t => by
      have h1 := wS_le_wM m.status
      have h2 := cS_le_cM t
      simp only [cS, cM]; omega

theorem cM_insertMember_none :
    ∀ (t : List (Ssrc × Member)) (id : Ssrc) (m : Member),
      lookupMember t id = none →
      cM (insertMember t id m) = cM t + wM m.status
  | [], id, m, _ => by simp [insertMember, cM]
  | (k, m') :: t, id, m, h => by
      by_cases hk : k = id
      · simp [lookupMember, hk] at h
      · simp only [lookupMember, if_neg hk] at h
        simp only [insertMember, if_neg hk, cM,
          cM_insertMember_none t id m h]
        omega

theorem cM_insertMember_some :
    ∀ (t : List (Ssrc × Member)) (id : Ssrc) (m₀ m : Member),
      lookupMember t id = some m₀ →
      cM (insertMember t id m) = cM t - wM m₀.status + wM m.status
  | [], _, _, _, h => by simp [lookupMember] at h
  | (k, m') :: t, id, m₀, m, h => by
      by_cases hk : k = id
      · simp only [lookupMember, if_pos hk] at h
        cases h
        simp only [insertMember, if_pos hk, cM]
        omega
      · simp only [lookupMember, if_neg hk] at h
        simp only [insertMember, if_neg hk, cM,
          cM_insertMember_some t id m₀ m h]
        omega

theorem cS_insertMember_none :
    ∀ (t : List (Ssrc × Member)) (id : Ssrc) (m : Member),
      lookupMember t id = none →
      cS (insertMember t id m) = cS t + wS m.status
  | [], id, m, _ => by simp [insertMember, cS]
  | (k, m') :: t, id, m, h => by
      by_cases hk : k = id
      · simp [lookupMember, hk] at h
      · simp only [lookupMember, if_neg hk] at h
        simp only [insertMember, if_neg hk, cS,
          cS_insertMember_none t id m h]
        omega

theorem cS_insertMember_some :
    ∀ (t : List (Ssrc × Member)) (id : Ssrc) (m₀ m : Member),
      lookupMember t id = some m₀ →
      cS (insertMember t id m) = cS t - wS m₀.status + wS m.status
  | [], _, _, _, h => by simp [lookupMember] at h
  | (k, m') :: t, id, m₀, m, h => by
      by_cases hk : k = id
      · simp only [lookupMember, if_pos hk] at h
        cases h
        simp only [insertMember, if_pos hk, cS]
        omega
      · simp only [lookupMember, if_neg hk] at h
        simp only [insertMember, if_neg hk, cS,
          cS_insertMember_some t id m₀ m h]
        omega

theorem cS_lt_cM_of_listening :
    ∀ (t : List (Ssrc × Member)) (our : Ssrc) (m : Member),
      lookupMember t our = some m → m.status = some MemberState.Listening →
      cS t + 1 ≤ cM t
  | [], _, _, h, _ => by simp [lookupMember] at h
  | (k, m') :: t, our, m, h, hst => by
      by_cases hk : k = our
      · simp only [lookupMember, if_pos hk] at h
        cases h
        have h2 := cS_le_cM t
        simp only [cS, cM, hst, wS, wM]
        omega
      · simp only [lookupMember, if_neg hk] at h
        have h1 := cS_lt_cM_of_listening t our m h hst
        have h2 := wS_le_wM m'.status
        simp only [cS, cM]
        omega

theorem ums_absent_sender (s : State) (id : Ssrc)
    (hl : lookupMember s.member_table id = none) :
    update_member_status s id true =
      { s with
          member_table :=
            insertMember s.member_table id
              ⟨id, none, some MemberState.Sending, 0⟩
          members := s.members + 1
          senders := s.senders + 1 } := by
  simp only [update_member_status, hl]
  simp

theorem ums_absent_listener (s : State) (id : Ssrc)
    (hl : lookupMember s.member_table id = none) :
    update_member_status s id false =
      { s with
          member_table :=
            insertMember s.member_table id ⟨id, none, none, 0⟩ } := by
  simp only [update_member_status, hl]
  rfl

theorem ums_found_unvalidated (s : State) (id : Ssrc) (b : Bool)
    (m : Member) (hl : lookupMember s.member_table id = some m)
    (hst : m.status = none) :
    update_member_status s id b =
      { s with
          member_table :=
            insertMember s.member_table id
              { m with intervals := 0,
                       status := some MemberState.Listening }
          members := s.members + 1 } := by
  simp only [update_member_status, hl, hst]

theorem ums_found_validated (s : State) (id : Ssrc) (b : Bool)
    (m : Member) (st : MemberState)
    (hl : lookupMember s.member_table id = some m)
    (hst : m.status = some st) :
    update_member_status s id b =
      { s with
          member_table :=
            insertMember s.member_table id { m with intervals := 0 } } := by
  simp only [update_member_status, hl, hst]

theorem bye_absent (s : State) (ssrc : Ssrc)
    (hl : lookupMember s.member_table ssrc = none) :
    byeUpdate s ssrc = s := by
  simp only [byeUpdate, hl]

theorem bye_listening (s : State) (ssrc : Ssrc) (m : Member)
    (hl : lookupMember s.member_table ssrc = some m)
    (hst : m.status = some MemberState.Listening) :
    byeUpdate s ssrc =
      { s with
          member_table :=
            insertMember s.member_table ssrc
              { m with status := some MemberState.Bye }
          members := s.members - 1 } := by
  simp only [byeUpdate, hl, hst]

theorem bye_sending (s : State) (ssrc : Ssrc) (m : Member)
    (hl : lookupMember s.member_table ssrc = some m)
    (hst : m.status = some MemberState.Sending) :
    byeUpdate s ssrc =
      { s with
          member_table :=
            insertMember s.member_table ssrc
              { m with status := some MemberState.Bye }
          members := s.members - 1
          senders := s.senders - 1 } := by
  simp only [byeUpdate, hl, hst]

theorem bye_ignored (s : State) (ssrc : Ssrc) (m : Member)
    (hl : lookupMember s.member_table ssrc = some m)
    (hst : m.status = none ∨ m.status = some MemberState.Bye) :
    byeUpdate s ssrc = s := by
  cases hst with
  | inl hst => simp only [byeUpdate, hl, hst]
  | inr hst => simp only [byeUpdate, hl, hst]

theorem Inv_update_member_status (our : Ssrc) (s : State) (id : Ssrc)
    (b : Bool) (h : Inv our s) : Inv our (update_member_status s id b) := by
  obtain ⟨hm, hs, m₀, hl, hst⟩ := h
  cases hlk : lookupMember s.member_table id with
  | some member =>
      cases hmst : member.status with
      | none =>
          have hne : our ≠ id := by
            rintro rfl
            rw [hl] at hlk
            cases hlk
            rw [hst] at hmst
            cases hmst
          rw [ums_found_unvalidated s id b member hlk hmst]
          refine ⟨?_, ?_, m₀, ?_, hst⟩
          · show s.members + 1 = cM (insertMember s.member_table id _)
            rw [cM_insertMember_some s.member_table id member _ hlk, hmst]
            simp [wM]
            omega
          · show s.senders = cS (insertMember s.member_table id _) + _
            rw [cS_insertMember_some s.member_table id member _ hlk, hmst]
            simp [wS]
            exact hs
          · show lookupMember (insertMember s.member_table id _) our = some m₀
            rw [lookup_insertMember_ne s.member_table id our _ hne]
            exact hl
      | some st =>
          rw [ums_found_validated s id b member st hlk hmst]
          refine ⟨?_, ?_, ?_⟩
          · show s.members = cM (insertMember s.member_table id _)
            rw [cM_insertMember_some s.member_table id member _ hlk]
            simp
            exact hm
          · show s.senders = cS (insertMember s.member_table id _) + _
            rw [cS_insertMember_some s.member_table id member _ hlk]
            simp
            exact hs
          · by_cases hid : our = id
            · subst hid
              rw [hl] at hlk
              cases hlk
              exact ⟨{ m₀ with intervals := 0 },
                lookup_insertMember_self s.member_table our _, hst⟩
            · exact ⟨m₀, by
                rw [lookup_insertMember_ne s.member_table id our _ hid]
                exact hl, hst⟩
  | none =>
      have hne : our ≠ id := by
        rintro rfl
        rw [hl] at hlk
        cases hlk
      cases b with
      | true =>
          rw [ums_absent_sender s id hlk]
          refine ⟨?_, ?_, m₀, ?_, hst⟩
          · show s.members + 1 = cM (insertMember s.member_table id _)
            rw [cM_insertMember_none s.member_table id _ hlk]
            simp [wM]
            omega
          · show s.senders + 1 = cS (insertMember s.member_table id _) + _
            rw [cS_insertMember_none s.member_table id _ hlk]
            simp [wS]
            omega
          · show lookupMember (insertMember s.member_table id _) our = some m₀
            rw [lookup_insertMember_ne s.member_table id our _ hne]
            exact hl
      | false =>
          rw [ums_absent_listener s id hlk]
          refine ⟨?_, ?_, m₀, ?_, hst⟩
          · show s.members = cM (insertMember s.member_table id _)
            rw [cM_insertMember_none s.member_table id _ hlk]
            simp [wM]
            exact hm
          · show s.senders = cS (insertMember s.member_table id _) + _
            rw [cS_insertMember_none s.member_table id _ hlk]
            simp [wS]
            exact hs
          · show lookupMember (insertMember s.member_table id _) our = some m₀
            rw [lookup_insertMember_ne s.member_table id our _ hne]
            exact hl

theorem Inv_touch_foldl (our : Ssrc) :
    ∀ (csrcs : List Csrc) (s : State), Inv our s →
      Inv our (List.foldl
        (fun st ident => update_member_status st ident false) s csrcs)
  | [], s, h => h
  | c :: cs, s, h =>
      Inv_touch_foldl our cs (update_member_status s c false)
        (Inv_update_member_status our s c false h)

theorem Inv_reverse_reconsideration (our : Ssrc) (s : State)
    (h : Inv our s) : Inv our (reverse_reconsideration s) := by
  unfold reverse_reconsideration
  split
  · exact h
  · exact h

theorem Inv_byeUpdate (our : Ssrc) (s : State) (ssrc : Ssrc)
    (hne : ssrc ≠ our) (h : Inv our s) : Inv our (byeUpdate s ssrc) := by
  obtain ⟨hm, hs, m₀, hl, hst⟩ := h
  cases hlk : lookupMember s.member_table ssrc with
  | none =>
      rw [bye_absent s ssrc hlk]
      exact ⟨hm, hs, m₀, hl, hst⟩
  | some member =>
      have hlkeep : lookupMember
          (insertMember s.member_table ssrc
            { member with status := some MemberState.Bye }) our =
          some m₀ := by
        rw [lookup_insertMember_ne s.member_table ssrc our _ (Ne.symm hne)]
        exact hl
      cases hmst : member.status with
      | none =>
          rw [bye_ignored s ssrc member hlk (Or.inl hmst)]
          exact ⟨hm, hs, m₀, hl, hst⟩
      | some st =>
          cases st with
          | Listening =>
              rw [bye_listening s ssrc member hlk hmst]
              refine ⟨?_, ?_, m₀, hlkeep, hst⟩
              · show s.members - 1 = cM (insertMember s.member_table ssrc _)
                rw [cM_insertMember_some s.member_table ssrc member _ hlk,
                  hmst]
                simp [wM]
                omega
              · show s.senders = cS (insertMember s.member_table ssrc _) + _
                rw [cS_insertMember_some s.member_table ssrc member _ hlk,
                  hmst]
                simp [wS]
                exact hs
          | Sending =>
              rw [bye_sending s ssrc member hlk hmst]
              refine ⟨?_, ?_, m₀, hlkeep, hst⟩
              · show s.members - 1 = cM (insertMember s.member_table ssrc _)
                rw [cM_insertMember_some s.member_table ssrc member _ hlk,
                  hmst]
                simp [wM]
                omega
              · show s.senders - 1 =
                  cS (insertMember s.member_table ssrc _) + _
                rw [cS_insertMember_some s.member_table ssrc member _ hlk,
                  hmst]
                simp [wS]
                omega
          | Bye =>
              rw [bye_ignored s ssrc member hlk (Or.inr hmst)]
              exact ⟨hm, hs, m₀, hl, hst⟩

theorem Inv_pkt_recv_notify (our : Ssrc) (s : State) (pt : PacketType)
    (sz : Int) (ssrc : Ssrc) (csrcs : List Csrc)
    (hne : pt = PacketType.Bye → ssrc ≠ our) (h : Inv our s) :
    Inv our (pkt_recv_notify s pt sz ssrc csrcs) := by
  unfold pkt_recv_notify
  cases pt with
  | Bye =>
      exact Inv_reverse_reconsideration our _
        (Inv_byeUpdate our s ssrc (hne rfl) h)
  | Rtp =>
      exact Inv_touch_foldl our csrcs _
        (Inv_update_member_status our s ssrc true h)
  | SendReport =>
      exact Inv_touch_foldl our csrcs _
        (Inv_update_member_status our s ssrc false h)
  | ReceiveReport =>
      exact Inv_touch_foldl our csrcs _
        (Inv_update_member_status our s ssrc false h)
  | SourceDescription =>
      exact Inv_touch_foldl our csrcs _
        (Inv_update_member_status our s ssrc false h)
  | App =>
      exact Inv_touch_foldl our csrcs _
        (Inv_update_member_status our s ssrc false h)

theorem pkt_send_notify_not_rtp (s : State) (pt : Option PacketType)
    (sz : Int) (our : Ssrc) (hpt : pt ≠ some PacketType.Rtp) :
    pkt_send_notify s pt sz our =
      some (reverse_reconsideration
        { s with initial := false,
                 avg_rtcp_size := updateAvgPacketSize s sz }) := by
  unfold pkt_send_notify
  cases pt with
  | none => rfl
  | some p => cases p <;> first | rfl | exact absurd rfl hpt

theorem pkt_send_notify_rtp_absent (s : State) (sz : Int) (our : Ssrc)
    (hl : lookupMember s.member_table our = none) :
    pkt_send_notify s (some PacketType.Rtp) sz our = none := by
  unfold pkt_send_notify
  cases hws : s.we_sent <;> simp [hws, hl]

theorem pkt_send_notify_rtp_present (s : State) (sz : Int) (our : Ssrc)
    (m : Member) (hl : lookupMember s.member_table our = some m) :
    pkt_send_notify s (some PacketType.Rtp) sz our =
      some (reverse_reconsideration
        { s with initial := false,
                 avg_rtcp_size := updateAvgPacketSize s sz,
                 we_sent := true,
                 senders := s.senders + (if s.we_sent then 0 else 1),
                 member_table :=
                   insertMember s.member_table our
                     { m with intervals := 0 } }) := by
  unfold pkt_send_notify
  cases hws : s.we_sent <;> simp [hws, hl] <;> rfl

theorem Inv_pkt_send_notify (our : Ssrc) (s : State)
    (pt : Option PacketType) (sz : Int) (h : Inv our s) :
    ∃ s', pkt_send_notify s pt sz our = some s' ∧ Inv our s' := by
  obtain ⟨hm, hs, m₀, hl, hst⟩ := h
  by_cases hpt : pt = some PacketType.Rtp
  · subst hpt
    rw [pkt_send_notify_rtp_present s sz our m₀ hl]
    refine ⟨_, rfl, Inv_reverse_reconsideration our _
      ⟨?_, ?_, { m₀ with intervals := 0 },
        lookup_insertMember_self _ our _, hst⟩⟩
    · show s.members = cM (insertMember s.member_table our _)
      rw [cM_insertMember_some s.member_table our m₀ _ hl]
      simp
      exact hm
    · show s.senders + _ = cS (insertMember s.member_table our _) + _
      rw [cS_insertMember_some s.member_table our m₀ _ hl]
      simp
      cases hws : s.we_sent
      · rw [hws] at hs
        simp at hs
        simp
        omega
      · rw [hws] at hs
        simp at hs
        simp
        omega
  · rw [pkt_send_notify_not_rtp s pt sz our hpt]
    exact ⟨_, rfl, Inv_reverse_reconsideration our _ ⟨hm, hs, m₀, hl, hst⟩⟩

theorem tx_timer_expire_due (s : State) (q1 q2 : Frac)
    (hc : s.tp + txInterval s q1 ≤ s.tc) :
    tx_timer_expire s q1 q2 =
      ({ s with
           tp := s.tc
           tn := s.tc + txInterval s q2
           pmembers := s.members }, true) := by
  unfold tx_timer_expire
  simp [hc]

theorem tx_timer_expire_not_due (s : State) (q1 q2 : Frac)
    (hc : ¬ (s.tp + txInterval s q1 ≤ s.tc)) :
    tx_timer_expire s q1 q2 =
      ({ s with
           tn := s.tp + txInterval s q1
           pmembers := s.members }, false) := by
  unfold tx_timer_expire
  simp [hc]

theorem Inv_tx_timer_expire (our : Ssrc) (s : State) (q1 q2 : Frac)
    (h : Inv our s) : Inv our (tx_timer_expire s q1 q2).1 := by
  by_cases hc : s.tp + txInterval s q1 ≤ s.tc
  · rw [tx_timer_expire_due s q1 q2 hc]
    exact h
  · rw [tx_timer_expire_not_due s q1 q2 hc]
    exact h

theorem Inv_initSession (our : Ssrc) (bw ps now : Int) (q : Frac) :
    Inv our (initSession our bw ps now q) := by
  refine ⟨?_, ?_, ⟨our, none, some MemberState.Listening, 0⟩, ?_, rfl⟩ <;>
    simp [initSession, insertMember, lookupMember, cM, cS, wM, wS]

theorem Inv_step (our : Ssrc) (s : State) (e : Event)
    (hne : isLocalBye our e = false) (h : Inv our s) :
    ∃ s', step our s e = some s' ∧ Inv our s' := by
  cases e with
  | recv pt sz ssrc csrcs =>
      refine ⟨_, rfl, Inv_pkt_recv_notify our s pt sz ssrc csrcs ?_ h⟩
      rintro rfl
      simp [isLocalBye] at hne
      exact fun hq => hne hq
  | send pt sz => exact Inv_pkt_send_notify our s pt sz h
  | timer q1 q2 => exact ⟨_, rfl, Inv_tx_timer_expire our s q1 q2 h⟩
  | leave => exact ⟨_, rfl, h⟩

theorem run_Inv (our : Ssrc) :
    ∀ (events : List Event) (s : State), Inv our s →
      (∀ e ∈ events, isLocalBye our e = false) →
      ∃ s', run our s events = some s' ∧ Inv our s'
  | [], s, h, _ => ⟨s, rfl, h⟩
  | e :: es, s, h, hev => by
      obtain ⟨s1, hstep, h1⟩ :=
        Inv_step our s e (hev e (List.mem_cons_self e es)) h
      obtain ⟨s', hrun, h'⟩ :=
        run_Inv our es s1 h1 (fun x hx => hev x (List.mem_cons_of_mem e hx))
      exact ⟨s', by simp only [run, hstep]; exact hrun, h'⟩

theorem Inv_bounds (our : Ssrc) (s : State) (h : Inv our s) :
    0 ≤ s.senders ∧ s.senders ≤ s.members := by
  obtain ⟨hm, hs, m₀, hl, hst⟩ := h
  have h1 := cS_nonneg s.member_table
  have h2 := cS_le_cM s.member_table
  cases hws : s.we_sent with
  | false =>
      rw [hws] at hs
      simp at hs
      constructor
      · omega
      · rw [hm, hs]
        exact h2
  | true =>
      rw [hws] at hs
      simp at hs
      have h3 := cS_lt_cM_of_listening s.member_table our m₀ hl hst
      constructor
      · omega
      · rw [hm, hs]
        omega

theorem rr_pmembers_le (s : State) :
    (reverse_reconsideration s).pmembers ≤
      (reverse_reconsideration s).members := by
  unfold reverse_reconsideration
  split
  · simp
  · next h => exact le_of_not_lt h

theorem ums_members_le (s : State) (id : Ssrc) (b : Bool) :
    s.members ≤ (update_member_status s id b).members ∧
      (update_member_status s id b).pmembers = s.pmembers := by
  cases hlk : lookupMember s.member_table id with
  | some member =>
      cases hmst : member.status with
      | none =>
          rw [ums_found_unvalidated s id b member hlk hmst]
          exact ⟨by simp, rfl⟩
      | some st =>
          rw [ums_found_validated s id b member st hlk hmst]
          exact ⟨le_refl _, rfl⟩
  | none =>
      cases b with
      | true =>
          rw [ums_absent_sender s id hlk]
          exact ⟨by simp, rfl⟩
      | false =>
          rw [ums_absent_listener s id hlk]
          exact ⟨le_refl _, rfl⟩

theorem foldl_members_le :
    ∀ (csrcs : List Csrc) (s : State),
      s.members ≤
        (List.foldl (fun st ident => update_member_status st ident false)
          s csrcs).members ∧
      (List.foldl (fun st ident => update_member_status st ident false)
          s csrcs).pmembers = s.pmembers
  | [], s => ⟨le_refl _, rfl⟩
  | c :: cs, s => by
      obtain ⟨h1, h2⟩ := ums_members_le s c false
      obtain ⟨h3, h4⟩ := foldl_members_le cs (update_member_status s c false)
      simp only [List.foldl_cons]
      exact ⟨le_trans h1 h3, by rw [h4, h2]⟩

theorem rr_members (s : State) :
    (reverse_reconsideration s).members = s.members := by
  unfold reverse_reconsideration
  split <;> rfl

theorem rr_senders (s : State) :
    (reverse_reconsideration s).senders = s.senders := by
  unfold reverse_reconsideration
  split <;> rfl

theorem rr_member_table (s : State) :
    (reverse_reconsideration s).member_table = s.member_table := by
  unfold reverse_reconsideration
  split <;> rfl

theorem rr_avg (s : State) :
    (reverse_reconsideration s).avg_rtcp_size = s.avg_rtcp_size := by
  unfold reverse_reconsideration
  split <;> rfl

theorem rr_initial (s : State) :
    (reverse_reconsideration s).initial = s.initial := by
  unfold reverse_reconsideration
  split <;> rfl

theorem touch_pmembers_le (s : State) (ssrc : Ssrc) (b : Bool)
    (csrcs : List Csrc) (h : s.pmembers ≤ s.members) :
    (List.foldl (fun st ident => update_member_status st ident false)
      (update_member_status s ssrc b) csrcs).pmembers ≤
    (List.foldl (fun st ident => update_member_status st ident false)
      (update_member_status s ssrc b) csrcs).members := by
  obtain ⟨h1, h2⟩ := ums_members_le s ssrc b
  obtain ⟨h3, h4⟩ := foldl_members_le csrcs (update_member_status s ssrc b)
  rw [h4, h2]
  omega

theorem pkt_send_notify_shape (s : State) (pt : Option PacketType)
    (sz : Int) (our : Ssrc) (s₁ : State)
    (h : pkt_send_notify s pt sz our = some s₁) :
    ∃ x, s₁ = reverse_reconsideration x := by
  unfold pkt_send_notify at h
  rw [Option.map_eq_some'] at h
  obtain ⟨a, _, ha⟩ := h
  exact ⟨a, ha.symm⟩

theorem step_pmembers_le (our : Ssrc) (s : State) (e : Event) (s₁ : State)
    (hstep : step our s e = some s₁) (h : s.pmembers ≤ s.members) :
    s₁.pmembers ≤ s₁.members := by
  cases e with
  | recv pt sz ssrc csrcs =>
      have hs₁ : s₁ = pkt_recv_notify s pt sz ssrc csrcs := by
        cases hstep
        rfl
      subst hs₁
      unfold pkt_recv_notify
      cases pt with
      | Bye =>
          show (reverse_reconsideration (byeUpdate s ssrc)).pmembers ≤
            (reverse_reconsideration (byeUpdate s ssrc)).members
          exact rr_pmembers_le (byeUpdate s ssrc)
      | Rtp => exact touch_pmembers_le s ssrc true csrcs h
      | SendReport => exact touch_pmembers_le s ssrc false csrcs h
      | ReceiveReport => exact touch_pmembers_le s ssrc false csrcs h
      | SourceDescription => exact touch_pmembers_le s ssrc false csrcs h
      | App => exact touch_pmembers_le s ssrc false csrcs h
  | send pt sz =>
      obtain ⟨x, hx⟩ := pkt_send_notify_shape s pt sz our s₁ hstep
      subst hx
      exact rr_pmembers_le x
  | timer q1 q2 =>
      have hs₁ : s₁ = (tx_timer_expire s q1 q2).1 := by
        cases hstep
        rfl
      subst hs₁
      by_cases hc : s.tp + txInterval s q1 ≤ s.tc
      · rw [tx_timer_expire_due s q1 q2 hc]
      · rw [tx_timer_expire_not_due s q1 q2 hc]
  | leave =>
      have hs₁ : s₁ = s := by
        cases hstep
        rfl
      subst hs₁
      exact h

theorem run_pmembers_le (our : Ssrc) :
    ∀ (events : List Event) (s₀ s : State), s₀.pmembers ≤ s₀.members →
      run our s₀ events = some s → s.pmembers ≤ s.members
  | [], s₀, s, h, hrun => by
      cases hrun
      exact h
  | e :: es, s₀, s, h, hrun => by
      cases hstep : step our s₀ e with
      | none =>
          rw [run, hstep] at hrun
          cases hrun
      | some s₁ =>
          rw [run, hstep] at hrun
          exact run_pmembers_le our es s₁ s
            (step_pmembers_le our s₀ e s₁ hstep h) hrun

theorem toQ_ofInt (n : Int) : toQ (ofInt n) = (n : ℚ) := by
  simp [toQ, ofInt]

theorem toQ_fmul (a b : Frac) : toQ (fmul a b) = toQ a * toQ b := by
  unfold toQ fmul
  push_cast
  rw [div_mul_div_comm]

theorem toQ_fdivF (a b : Frac) : toQ (fdivF a b) = toQ a / toQ b := by
  unfold toQ fdivF
  push_cast
  rw [div_eq_mul_inv ((a.num : ℚ) / (a.den : ℚ)), inv_div,
    div_mul_div_comm]

theorem toQ_fadd (a b : Frac) (ha : (a.den : ℚ) ≠ 0)
    (hb : (b.den : ℚ) ≠ 0) : toQ (fadd a b) = toQ a + toQ b := by
  unfold toQ fadd
  push_cast
  field_simp

theorem rtruncF_le (x : Frac) (hnum : 0 ≤ x.num) (hden : 0 < x.den) :
    (rtruncF x : ℚ) ≤ toQ x := by
  unfold rtruncF tdivZ toQ
  rw [if_pos hnum, le_div_iff (by exact_mod_cast hden : (0:ℚ) < x.den)]
  have h := Int.ediv_add_emod x.num x.den
  have h2 := Int.emod_nonneg x.num (ne_of_gt hden)
  have key : x.den * (x.num / x.den) ≤ x.num := by omega
  calc ((x.num / x.den : Int) : ℚ) * (x.den : ℚ)
      = ((x.den * (x.num / x.den) : Int) : ℚ) := by push_cast; ring
    _ ≤ (x.num : ℚ) := by exact_mod_cast key

theorem rtruncF_gt (x : Frac) (hnum : 0 ≤ x.num) (hden : 0 < x.den) :
    toQ x - 1 < (rtruncF x : ℚ) := by
  unfold rtruncF tdivZ toQ
  rw [if_pos hnum, sub_lt_iff_lt_add,
    div_lt_iff (by exact_mod_cast hden : (0:ℚ) < x.den)]
  have h := Int.ediv_add_emod x.num x.den
  have h2 := Int.emod_lt_of_pos x.num hden
  have hx : x.den * (x.num / x.den + 1) =
      x.den * (x.num / x.den) + x.den := by ring
  have key : x.num < x.den * (x.num / x.den + 1) := by omega
  calc (x.num : ℚ) < ((x.den * (x.num / x.den + 1) : Int) : ℚ) := by
        exact_mod_cast key
    _ = (((x.num / x.den : Int) : ℚ) + 1) * (x.den : ℚ) := by
        push_cast; ring

theorem rtruncF_nonneg (x : Frac) (hnum : 0 ≤ x.num) (hden : 0 < x.den) :
    0 ≤ rtruncF x := by
  unfold rtruncF tdivZ
  rw [if_pos hnum]
  exact Int.ediv_nonneg hnum hden.le

theorem few_senders_iff (s : State) :
    (fle (ofInt s.senders) (fmul ⟨25, 100⟩ (ofInt s.members)) = true) ↔
      ((s.senders : ℚ) ≤ 0.25 * (s.members : ℚ)) := by
  unfold fle fmul ofInt
  rw [decide_eq_true_iff]
  rw [show (0.25 : ℚ) = 25 / 100 by norm_num, div_mul_eq_mul_div,
    le_div_iff (by norm_num : (0:ℚ) < 100)]
  constructor
  · intro h
    have h' : ((s.senders * (100 * 1) : ℤ) : ℚ) ≤
        (((25 * s.members) * 1 : ℤ) : ℚ) := by exact_mod_cast h
    push_cast at h'
    linarith
  · intro h
    have h' : (s.senders * 100 : ℤ) ≤ (25 * s.members : ℤ) := by
      exact_mod_cast h
    simpa using h'

theorem rtrunc_mul_le_specTd (s : State) (e : Frac) (n : Int)
    (henum : 0 ≤ e.num) (hede : 0 < e.den)
    (hval : specCn s = toQ e * (n : ℚ)) :
    ((rtruncF e * n : ℤ) : ℚ) ≤ specTd s := by
  have htm : (0:ℚ) ≤ ((tMin s : ℤ) : ℚ) := by
    unfold tMin
    split <;> norm_num
  rcases le_or_lt 0 n with hn | hn
  · have h1 : (rtruncF e : ℚ) ≤ toQ e := rtruncF_le e henum hede
    have h2 : ((rtruncF e * n : ℤ) : ℚ) = (rtruncF e : ℚ) * (n : ℚ) := by
      push_cast
      ring
    rw [h2]
    calc (rtruncF e : ℚ) * (n : ℚ)
        ≤ toQ e * (n : ℚ) :=
          mul_le_mul_of_nonneg_right h1 (by exact_mod_cast hn)
      _ = specCn s := hval.symm
      _ ≤ specTd s := le_max_right _ _
  · have h1 : 0 ≤ rtruncF e := rtruncF_nonneg e henum hede
    have h2 : rtruncF e * n ≤ 0 := by
      have h3 := mul_le_mul_of_nonneg_left hn.le h1
      simpa using h3
    calc ((rtruncF e * n : ℤ) : ℚ) ≤ 0 := by exact_mod_cast h2
      _ ≤ ((tMin s : ℤ) : ℚ) := htm
      _ ≤ specTd s := le_max_left _ _

theorem cTimesN_le_specTd (s : State) (hbw : 0 < s.rtcp_bw)
    (hanum : 0 < s.avg_rtcp_size.num) (haden : 0 < s.avg_rtcp_size.den) :
    ((cTimesN s : ℤ) : ℚ) ≤ specTd s := by
  have hbwq : ((s.rtcp_bw : ℤ) : ℚ) ≠ 0 := by
    exact_mod_cast ne_of_gt hbw
  have hadq : ((s.avg_rtcp_size.den : ℤ) : ℚ) ≠ 0 := by
    exact_mod_cast ne_of_gt haden
  unfold cTimesN
  by_cases hf :
      fle (ofInt s.senders) (fmul ⟨25, 100⟩ (ofInt s.members)) = true
  · have hfq := (few_senders_iff s).mp hf
    simp only [hf, if_true]
    cases hws : s.we_sent with
    | true =>
        simp only [if_true]
        apply rtrunc_mul_le_specTd s _ s.senders
        · show (0:ℤ) ≤ s.avg_rtcp_size.num * 1 * 25 * 1000000
          positivity
        · show (0:ℤ) < s.avg_rtcp_size.den * s.rtcp_bw * 100 * 1
          positivity
        · unfold specCn
          rw [if_pos hfq, hws, if_pos rfl]
          rw [toQ_fmul, toQ_fmul, toQ_fdivF, toQ_ofInt, toQ_ofInt,
            show toQ ⟨25, 100⟩ = (0.25 : ℚ) from by norm_num [toQ]]
          push_cast
          ring
    | false =>
        simp only [Bool.false_eq_true, if_false]
        apply rtrunc_mul_le_specTd s _ (s.members - s.senders)
        · show (0:ℤ) ≤ s.avg_rtcp_size.num * 1 * 75 * 1000000
          positivity
        · show (0:ℤ) < s.avg_rtcp_size.den * s.rtcp_bw * 100 * 1
          positivity
        · unfold specCn
          rw [if_pos hfq, hws]
          simp only [Bool.false_eq_true, if_false]
          rw [toQ_fmul, toQ_fmul, toQ_fdivF, toQ_ofInt, toQ_ofInt,
            show toQ ⟨75, 100⟩ = (0.75 : ℚ) from by norm_num [toQ]]
          push_cast
          ring
  · have hfq : ¬ ((s.senders : ℚ) ≤ 0.25 * (s.members : ℚ)) :=
      fun hq => hf ((few_senders_iff s).mpr hq)
    simp only [hf, if_false]
    apply rtrunc_mul_le_specTd s _ s.members
    · show (0:ℤ) ≤ s.avg_rtcp_size.num * 1 * 1000000
      positivity
    · show (0:ℤ) < s.avg_rtcp_size.den * s.rtcp_bw * 1
      positivity
    · unfold specCn
      rw [if_neg hfq]
      rw [toQ_fmul, toQ_fdivF, toQ_ofInt, toQ_ofInt]
      push_cast
      ring

theorem txInterval_between (s : State) (q : Frac) (hq0 : 0 ≤ q.num)
    (hq1 : q.num ≤ q.den) (hqden : 0 < q.den) (hD : 0 < tdMicros s) :
    ((tdMicros s : ℚ) / 2) / (1.21828 : ℚ) - 1 < (txInterval s q : ℚ) ∧
    (txInterval s q : ℚ) ≤
      (3 / 2 * (tdMicros s : ℚ)) / (1.21828 : ℚ) := by
  have hDq : (0:ℚ) < ((tdMicros s : ℤ) : ℚ) := by exact_mod_cast hD
  have hq01a : 0 ≤ toQ q := by
    unfold toQ
    have h1 : (0:ℚ) ≤ (q.num : ℚ) := by exact_mod_cast hq0
    have h2 : (0:ℚ) ≤ (q.den : ℚ) := by
      exact_mod_cast hqden.le
    exact div_nonneg h1 h2
  have hq01b : toQ q ≤ 1 := by
    unfold toQ
    rw [div_le_one (by exact_mod_cast hqden : (0:ℚ) < (q.den : ℚ))]
    exact_mod_cast hq1
  have hnum : 0 ≤ (fdivF (fadd (fdivF (ofInt (tdMicros s)) (ofInt 2))
      (fmul q (ofInt (tdMicros s)))) ⟨121828, 100000⟩).num := by
    show (0:ℤ) ≤
      (tdMicros s * 1 * (q.den * 1) + q.num * tdMicros s * (1 * 2)) * 100000
    have h1 : (0:ℤ) ≤ tdMicros s * 1 * (q.den * 1) := by
      have := mul_nonneg hD.le hqden.le
      nlinarith
    have h2 : (0:ℤ) ≤ q.num * tdMicros s * (1 * 2) := by
      have := mul_nonneg hq0 hD.le
      nlinarith
    nlinarith
  have hden : 0 < (fdivF (fadd (fdivF (ofInt (tdMicros s)) (ofInt 2))
      (fmul q (ofInt (tdMicros s)))) ⟨121828, 100000⟩).den := by
    show (0:ℤ) < 1 * 2 * (q.den * 1) * 121828
    nlinarith
  have hden1 : ((fdivF (ofInt (tdMicros s)) (ofInt 2)).den : ℚ) ≠ 0 := by
    norm_num [fdivF, ofInt]
  have hden2 : ((fmul q (ofInt (tdMicros s))).den : ℚ) ≠ 0 := by
    show (((q.den * 1 : ℤ)) : ℚ) ≠ 0
    simp
    exact_mod_cast ne_of_gt hqden
  have hFval : toQ (fdivF (fadd (fdivF (ofInt (tdMicros s)) (ofInt 2))
      (fmul q (ofInt (tdMicros s)))) ⟨121828, 100000⟩) =
      (((tdMicros s : ℤ) : ℚ) / 2 + toQ q * ((tdMicros s : ℤ) : ℚ)) /
        ((121828 : ℚ) / 100000) := by
    rw [toQ_fdivF, toQ_fadd _ _ hden1 hden2, toQ_fdivF, toQ_fmul,
      toQ_ofInt, toQ_ofInt]
    norm_num [toQ]
  have hk : (0:ℚ) < (121828 : ℚ) / 100000 := by norm_num
  have hTRlow : ((tdMicros s : ℤ) : ℚ) / 2 ≤
      ((tdMicros s : ℤ) : ℚ) / 2 + toQ q * ((tdMicros s : ℤ) : ℚ) := by
    nlinarith
  have hTRhigh : ((tdMicros s : ℤ) : ℚ) / 2 +
      toQ q * ((tdMicros s : ℤ) : ℚ) ≤
      3 / 2 * ((tdMicros s : ℤ) : ℚ) := by
    nlinarith
  have h121828 : (1.21828 : ℚ) = (121828 : ℚ) / 100000 := by norm_num
  constructor
  · have hgt := rtruncF_gt _ hnum hden
    rw [hFval] at hgt
    have hmono := div_le_div_of_nonneg_right hTRlow hk.le
    show ((tdMicros s : ℤ) : ℚ) / 2 / (1.21828 : ℚ) - 1 <
      ((txInterval s q : ℤ) : ℚ)
    rw [h121828]
    calc ((tdMicros s : ℤ) : ℚ) / 2 / ((121828:ℚ)/100000) - 1
        ≤ (((tdMicros s : ℤ) : ℚ) / 2 +
            toQ q * ((tdMicros s : ℤ) : ℚ)) / ((121828:ℚ)/100000) - 1 := by
          linarith
      _ < ((txInterval s q : ℤ) : ℚ) := hgt
  · have hle := rtruncF_le _ hnum hden
    rw [hFval] at hle
    have hmono := div_le_div_of_nonneg_right hTRhigh hk.le
    show ((txInterval s q : ℤ) : ℚ) ≤
      3 / 2 * ((tdMicros s : ℤ) : ℚ) / (1.21828 : ℚ)
    rw [h121828]
    calc ((txInterval s q : ℤ) : ℚ)
        ≤ (((tdMicros s : ℤ) : ℚ) / 2 +
            toQ q * ((tdMicros s : ℤ) : ℚ)) / ((121828:ℚ)/100000) := hle
      _ ≤ 3 / 2 * ((tdMicros s : ℤ) : ℚ) / ((121828:ℚ)/100000) := hmono

/-- Claim C3 (amended): for every session state with positive bandwidth
and positive average packet size and every random sample in [0, 1],
`tx_interval` returns more than `(0.5 * t_min) / 1.21828` minus one
microsecond (the source truncates the scaled value to a whole number of
microseconds) and at most `(1.5 * t_d) / 1.21828` for the exact rational
`t_d = max(t_min, C' * n)` implied by the state per section 4.2. -/
theorem C3_amended (s : State) (q : Frac) (hbw : 0 < s.rtcp_bw)
    (hanum : 0 < s.avg_rtcp_size.num) (haden : 0 < s.avg_rtcp_size.den)
    (hq0 : 0 ≤ q.num) (hq1 : q.num ≤ q.den) (hqden : 0 < q.den) :
    ((tMin s : ℚ) / 2) / (1.21828 : ℚ) - 1 < (txInterval s q : ℚ) ∧
    (txInterval s q : ℚ) ≤ (3 / 2 * specTd s) / (1.21828 : ℚ) := by
  have htmin_pos : (0:ℤ) < tMin s := by
    unfold tMin
    split <;> norm_num
  have htmin_le : tMin s ≤ 5000000 := by
    unfold tMin
    split <;> norm_num
  have hi64 : (5000000:ℤ) ≤ i64Max := by norm_num [i64Max]
  have htD_ge : tMin s ≤ tD s := le_max_left _ _
  have hD_ge : tMin s ≤ tdMicros s := by
    unfold tdMicros
    split
    · exact htD_ge
    · omega
  have hD_pos : 0 < tdMicros s := lt_of_lt_of_le htmin_pos hD_ge
  have hD_le_tD : tdMicros s ≤ tD s := by
    unfold tdMicros
    split
    · exact le_refl _
    · next h => omega
  have hk : (0:ℚ) < (1.21828:ℚ) := by norm_num
  have hcn := cTimesN_le_specTd s hbw hanum haden
  have htD_le_spec : ((tD s : ℤ) : ℚ) ≤ specTd s := by
    unfold tD
    rw [Int.cast_max]
    exact max_le (le_max_left _ _) hcn
  obtain ⟨hlow, hhigh⟩ := txInterval_between s q hq0 hq1 hqden hD_pos
  constructor
  · have hc : ((tMin s : ℤ) : ℚ) ≤ ((tdMicros s : ℤ) : ℚ) := by
      exact_mod_cast hD_ge
    have hmono : ((tMin s : ℤ) : ℚ) / 2 ≤ ((tdMicros s : ℤ) : ℚ) / 2 := by
      linarith
    have hmono2 := div_le_div_of_nonneg_right hmono hk.le
    linarith
  · have hcast : ((tdMicros s : ℤ) : ℚ) ≤ ((tD s : ℤ) : ℚ) := by
      exact_mod_cast hD_le_tD
    have h1 : 3 / 2 * ((tdMicros s : ℤ) : ℚ) ≤ 3 / 2 * specTd s := by
      linarith
    have h2 := div_le_div_of_nonneg_right h1 hk.le
    linarith

/-- Witness for C3 (amended) at `baseState` with random sample 0. -/
theorem C3_amended_witness :
    (0 < baseState.rtcp_bw ∧ 0 < baseState.avg_rtcp_size.num ∧
      0 < baseState.avg_rtcp_size.den) ∧
    (((tMin baseState : ℚ) / 2) / (1.21828 : ℚ) - 1 <
        (txInterval baseState (ofInt 0) : ℚ) ∧
      (txInterval baseState (ofInt 0) : ℚ) ≤
        (3 / 2 * specTd baseState) / (1.21828 : ℚ)) :=
  ⟨⟨by decide, by decide, by decide⟩,
   C3_amended baseState (ofInt 0) (by decide) (by decide) (by decide)
     (by decide) (by decide) (by decide)⟩

/-- Counterexample to C3 as stated: at the freshly initialized state
(`initial` true, so t_min = 2.5 s) and random sample 0, `tx_interval`
returns 1026036 microseconds, strictly below the claimed lower bound
`(0.5 * t_min) / 1.21828 = 1026036.70...` microseconds, because the source
truncates the final scaled value to a whole number of microseconds. -/
theorem C3_counterexample :
    txInterval baseState (ofInt 0) = 1026036 ∧
    tMin baseState = 2500000 ∧
    ¬ ((tMin baseState : ℚ) / 2 / (1.21828 : ℚ) ≤
        (txInterval baseState (ofInt 0) : ℚ)) := by
  refine ⟨by decide, by decide, ?_⟩
  rw [show txInterval baseState (ofInt 0) = 1026036 from by decide,
    show tMin baseState = 2500000 from by decide]
  push_cast
  norm_num

/-- Claim C1: evaluation of `reverse_reconsideration` at the concrete state
`rrState` (members = 1 < pmembers = 2, `tn` ten seconds after `tc`, `tp`
four seconds before `tc`).  The source multiplies the pending durations by
the `i32` integer quotient `members / pmembers`, which truncates to 0, so
`tn` and `tp` collapse to `tc` and the result differs from the rescale by
the true rational ratio (which would give `tn = tc + 5 s = 15000000 µs`);
`pmembers` is still set to `members`. -/
theorem C1_integer_ratio_collapse :
    (reverse_reconsideration rrState).tn = rrState.tc ∧
    (reverse_reconsideration rrState).tp = rrState.tc ∧
    (reverse_reconsideration rrState).pmembers = 1 ∧
    (rrState.tc : ℚ) +
        ((rrState.members : ℚ) / (rrState.pmembers : ℚ)) *
          ((rrState.tn : ℚ) - (rrState.tc : ℚ)) = 15000000 ∧
    ((reverse_reconsideration rrState).tn : ℚ) ≠ 15000000 := by
  refine ⟨rfl, rfl, rfl, by norm_num [rrState], ?_⟩
  have h : (reverse_reconsideration rrState).tn = 10000000 := rfl
  rw [h]
  norm_num

/-- Claim C2 (amended): for every sequence of handler invocations applied
to an initialized session in which no received Bye packet carries the local
Ssrc, every completed run satisfies `members >= senders >= 0`. -/
theorem C2_amended (our : Ssrc) (bw ps now : Int) (q : Frac)
    (events : List Event)
    (hev : ∀ e ∈ events, isLocalBye our e = false) (s : State)
    (hrun : run our (initSession our bw ps now q) events = some s) :
    0 ≤ s.senders ∧ s.senders ≤ s.members := by
  obtain ⟨s', hrun', hinv⟩ :=
    run_Inv our events (initSession our bw ps now q)
      (Inv_initSession our bw ps now q) hev
  rw [hrun'] at hrun
  obtain rfl := Option.some.inj hrun
  exact Inv_bounds our s' hinv

/-- Witness for C2 (amended) at the empty event sequence starting from
`initialize(1, 8000, 200)`. -/
theorem C2_amended_witness :
    (∀ e ∈ ([] : List Event), isLocalBye 1 e = false) ∧
    (0 ≤ (initSession 1 8000 200 0 (ofInt 0)).senders ∧
      (initSession 1 8000 200 0 (ofInt 0)).senders ≤
        (initSession 1 8000 200 0 (ofInt 0)).members) :=
  ⟨by simp, C2_amended 1 8000 200 0 (ofInt 0) [] (by simp) _ rfl⟩

/-- Counterexample to C2 as stated: a received Bye carrying the local Ssrc
(members drops to 0) followed by a local Rtp send (senders rises to 1)
leaves the state with `senders > members`. -/
theorem C2_counterexample :
    (run 1 baseState byeThenSend).map
        (fun s => (s.members, s.senders, decide (s.senders ≤ s.members))) =
      some (0, 1, false) := by decide

/-- Claim C4: when `pkt_recv_notify` is called with packet type Bye: an
absent ssrc leaves members, senders and the table unchanged; a member with
status Listening becomes Bye with `members` decremented; a member with
status Sending becomes Bye with both `members` and `senders` decremented; a
member with status None or Bye is ignored; and in every case reverse
reconsideration then runs unconditionally on the result. -/
theorem C4_bye_handling (s : State) (sz : Int) (ssrc : Ssrc)
    (csrcs : List Csrc) :
    (lookupMember s.member_table ssrc = none →
        (pkt_recv_notify s PacketType.Bye sz ssrc csrcs).members =
            s.members ∧
        (pkt_recv_notify s PacketType.Bye sz ssrc csrcs).senders =
            s.senders ∧
        (pkt_recv_notify s PacketType.Bye sz ssrc csrcs).member_table =
            s.member_table) ∧
    (∀ m, lookupMember s.member_table ssrc = some m →
        (m.status = some MemberState.Listening →
            (pkt_recv_notify s PacketType.Bye sz ssrc csrcs).members =
                s.members - 1 ∧
            (pkt_recv_notify s PacketType.Bye sz ssrc csrcs).senders =
                s.senders ∧
            lookupMember (pkt_recv_notify s PacketType.Bye sz ssrc
                csrcs).member_table ssrc =
              some { m with status := some MemberState.Bye }) ∧
        (m.status = some MemberState.Sending →
            (pkt_recv_notify s PacketType.Bye sz ssrc csrcs).members =
                s.members - 1 ∧
            (pkt_recv_notify s PacketType.Bye sz ssrc csrcs).senders =
                s.senders - 1 ∧
            lookupMember (pkt_recv_notify s PacketType.Bye sz ssrc
                csrcs).member_table ssrc =
              some { m with status := some MemberState.Bye }) ∧
        (m.status = none ∨ m.status = some MemberState.Bye →
            (pkt_recv_notify s PacketType.Bye sz ssrc csrcs).members =
                s.members ∧
            (pkt_recv_notify s PacketType.Bye sz ssrc csrcs).senders =
                s.senders ∧
            (pkt_recv_notify s PacketType.Bye sz ssrc csrcs).member_table =
                s.member_table)) ∧
    ((pkt_recv_notify s PacketType.Bye sz ssrc csrcs).tn =
        (reverse_reconsideration (byeUpdate s ssrc)).tn ∧
     (pkt_recv_notify s PacketType.Bye sz ssrc csrcs).tp =
        (reverse_reconsideration (byeUpdate s ssrc)).tp ∧
     (pkt_recv_notify s PacketType.Bye sz ssrc csrcs).pmembers =
        (reverse_reconsideration (byeUpdate s ssrc)).pmembers) := by
  refine ⟨?_, ?_, rfl, rfl, rfl⟩
  · intro hl
    have hb : byeUpdate s ssrc = s := bye_absent s ssrc hl
    refine ⟨?_, ?_, ?_⟩
    · show (reverse_reconsideration (byeUpdate s ssrc)).members = s.members
      rw [rr_members, hb]
    · show (reverse_reconsideration (byeUpdate s ssrc)).senders = s.senders
      rw [rr_senders, hb]
    · show (reverse_reconsideration (byeUpdate s ssrc)).member_table =
        s.member_table
      rw [rr_member_table, hb]
  · intro m hl
    refine ⟨?_, ?_, ?_⟩
    · intro hst
      have hb := bye_listening s ssrc m hl hst
      refine ⟨?_, ?_, ?_⟩
      · show (reverse_reconsideration (byeUpdate s ssrc)).members =
          s.members - 1
        rw [rr_members, hb]
      · show (reverse_reconsideration (byeUpdate s ssrc)).senders = s.senders
        rw [rr_senders, hb]
      · show lookupMember
          (reverse_reconsideration (byeUpdate s ssrc)).member_table ssrc = _
        rw [rr_member_table, hb]
        exact lookup_insertMember_self s.member_table ssrc _
    · intro hst
      have hb := bye_sending s ssrc m hl hst
      refine ⟨?_, ?_, ?_⟩
      · show (reverse_reconsideration (byeUpdate s ssrc)).members =
          s.members - 1
        rw [rr_members, hb]
      · show (reverse_reconsideration (byeUpdate s ssrc)).senders =
          s.senders - 1
        rw [rr_senders, hb]
      · show lookupMember
          (reverse_reconsideration (byeUpdate s ssrc)).member_table ssrc = _
        rw [rr_member_table, hb]
        exact lookup_insertMember_self s.member_table ssrc _
    · intro hst
      have hb : byeUpdate s ssrc = s := bye_ignored s ssrc m hl hst
      refine ⟨?_, ?_, ?_⟩
      · show (reverse_reconsideration (byeUpdate s ssrc)).members = s.members
        rw [rr_members, hb]
      · show (reverse_reconsideration (byeUpdate s ssrc)).senders = s.senders
        rw [rr_senders, hb]
      · show (reverse_reconsideration (byeUpdate s ssrc)).member_table =
          s.member_table
        rw [rr_member_table, hb]

/-- Witness for C4 at the concrete state `listState`: a Bye from the
Listening member 2 decrements `members`, leaves `senders`, and marks the
member `Bye`. -/
theorem C4_bye_handling_witness :
    (pkt_recv_notify listState PacketType.Bye 50 2 []).members =
        listState.members - 1 ∧
    (pkt_recv_notify listState PacketType.Bye 50 2 []).senders =
        listState.senders ∧
    lookupMember
        (pkt_recv_notify listState PacketType.Bye 50 2 []).member_table 2 =
      some ⟨2, none, some MemberState.Bye, 0⟩ :=
  ((C4_bye_handling listState 50 2 []).2.1
      ⟨2, none, some MemberState.Listening, 0⟩ (by decide)).1 (by decide)

/-- Claim C5 (amended): an Ssrc absent from the table that sends Rtp media
is inserted with status Sending and both counters are incremented, exactly
once (a second touch changes neither counter); an Ssrc present with status
None is promoted to Listening with only `members` incremented, whatever
packet touched it; an already-validated Ssrc is left unchanged; a non-Rtp
packet from an unknown Ssrc inserts it with status None without changing
the counters. -/
theorem C5_amended (s : State) (id : Ssrc) :
    (lookupMember s.member_table id = none →
        (lookupMember (update_member_status s id true).member_table id =
            some ⟨id, none, some MemberState.Sending, 0⟩ ∧
         (update_member_status s id true).members = s.members + 1 ∧
         (update_member_status s id true).senders = s.senders + 1) ∧
        (∀ b : Bool,
          (update_member_status (update_member_status s id true) id
              b).members = (update_member_status s id true).members ∧
          (update_member_status (update_member_status s id true) id
              b).senders = (update_member_status s id true).senders)) ∧
    (∀ m, lookupMember s.member_table id = some m → m.status = none →
        ∀ b : Bool,
          lookupMember (update_member_status s id b).member_table id =
            some { m with intervals := 0,
                          status := some MemberState.Listening } ∧
          (update_member_status s id b).members = s.members + 1 ∧
          (update_member_status s id b).senders = s.senders) ∧
    (∀ m st, lookupMember s.member_table id = some m →
        m.status = some st → ∀ b : Bool,
          lookupMember (update_member_status s id b).member_table id =
            some { m with intervals := 0 } ∧
          (update_member_status s id b).members = s.members ∧
          (update_member_status s id b).senders = s.senders) ∧
    (lookupMember s.member_table id = none →
        lookupMember (update_member_status s id false).member_table id =
          some ⟨id, none, none, 0⟩ ∧
        (update_member_status s id false).members = s.members ∧
        (update_member_status s id false).senders = s.senders) := by
  refine ⟨?_, ?_, ?_, ?_⟩
  · intro hl
    have h1 := ums_absent_sender s id hl
    constructor
    · rw [h1]
      exact ⟨lookup_insertMember_self s.member_table id _, rfl, rfl⟩
    · intro b
      have h2 : lookupMember
          (update_member_status s id true).member_table id =
          some ⟨id, none, some MemberState.Sending, 0⟩ := by
        rw [h1]
        exact lookup_insertMember_self s.member_table id _
      have h3 := ums_found_validated (update_member_status s id true) id b
        ⟨id, none, some MemberState.Sending, 0⟩ MemberState.Sending h2 rfl
      rw [h3]
      exact ⟨rfl, rfl⟩
  · intro m hl hst b
    have h1 := ums_found_unvalidated s id b m hl hst
    rw [h1]
    exact ⟨lookup_insertMember_self s.member_table id _, rfl, rfl⟩
  · intro m st hl hst b
    have h1 := ums_found_validated s id b m st hl hst
    rw [h1]
    exact ⟨lookup_insertMember_self s.member_table id _, rfl, rfl⟩
  · intro hl
    have h1 := ums_absent_listener s id hl
    rw [h1]
    exact ⟨lookup_insertMember_self s.member_table id _, rfl, rfl⟩

/-- Witness for C5 (amended) at `baseState` and the unknown Ssrc 2. -/
theorem C5_amended_witness :
    lookupMember
        (update_member_status baseState 2 true).member_table 2 =
      some ⟨2, none, some MemberState.Sending, 0⟩ ∧
    (update_member_status baseState 2 true).members =
      baseState.members + 1 ∧
    (update_member_status baseState 2 true).senders =
      baseState.senders + 1 :=
  ((C5_amended baseState 2).1 (by decide)).1

/-- Counterexample to C5 as stated: Ssrc 2 is present with status None
(after a first SendReport contact) and then sends Rtp media, but it is
promoted to Listening, not Sending, and `senders` is not incremented. -/
theorem C5_counterexample :
    (lookupMember c5sA.member_table 2).map Member.status = some none ∧
    (lookupMember c5sB.member_table 2).map Member.status =
      some (some MemberState.Listening) ∧
    (lookupMember c5sB.member_table 2).map Member.status ≠
      some (some MemberState.Sending) ∧
    c5sA.senders = 0 ∧
    c5sB.senders = 0 := by decide

/-- Claim C6: at timer expiry a candidate interval `t` is computed; when
`tp + t <= tc` the host is signalled to transmit now, `tp` is set to `tc`
and `tn` to `tc` plus a freshly drawn second interval; otherwise `tn` is
set to `tp + t` with no transmission requested; in both branches `pmembers`
is set to `members`. -/
theorem C6_timer_expiry (s : State) (q1 q2 : Frac) :
    (s.tp + txInterval s q1 ≤ s.tc →
        tx_timer_expire s q1 q2 =
          ({ s with
               tp := s.tc
               tn := s.tc + txInterval s q2
               pmembers := s.members }, true)) ∧
    (s.tc < s.tp + txInterval s q1 →
        tx_timer_expire s q1 q2 =
          ({ s with
               tn := s.tp + txInterval s q1
               pmembers := s.members }, false)) :=
  ⟨tx_timer_expire_due s q1 q2,
   fun h => tx_timer_expire_not_due s q1 q2 (not_le.mpr h)⟩

/-- Witness for C6 at `baseState`: the scheduled send is not yet due, so no
transmission is requested, `tn` becomes `tp + t` and `pmembers` is
snapshotted. -/
theorem C6_timer_expiry_witness :
    baseState.tc < baseState.tp + txInterval baseState (ofInt 0) ∧
    tx_timer_expire baseState (ofInt 0) (ofInt 0) =
      ({ baseState with
           tn := baseState.tp + txInterval baseState (ofInt 0)
           pmembers := baseState.members }, false) :=
  ⟨by decide,
   (C6_timer_expiry baseState (ofInt 0) (ofInt 0)).2 (by decide)⟩

/-- Claim C8: every completed send notification clears `initial` and
applies the EWMA to `avg_rtcp_size`; an Rtp send with the local Ssrc absent
from the table panics (returns `none`); an Rtp send with `we_sent` false
sets `we_sent`, increments `senders`, resets the local member's intervals
counter, and runs reverse reconsideration; any other packet type only
applies the `initial` and EWMA updates before reverse reconsideration. -/
theorem C8_send_handling (s : State) (pt : Option PacketType) (sz : Int)
    (our : Ssrc) :
    (∀ s', pkt_send_notify s pt sz our = some s' →
        s'.initial = false ∧
        s'.avg_rtcp_size = updateAvgPacketSize s sz) ∧
    (pt = some PacketType.Rtp → lookupMember s.member_table our = none →
        pkt_send_notify s pt sz our = none) ∧
    (∀ m, pt = some PacketType.Rtp →
        lookupMember s.member_table our = some m → s.we_sent = false →
        pkt_send_notify s pt sz our =
          some (reverse_reconsideration
            { s with
                initial := false
                avg_rtcp_size := updateAvgPacketSize s sz
                we_sent := true
                senders := s.senders + 1
                member_table := insertMember s.member_table our
                  { m with intervals := 0 } })) ∧
    (pt ≠ some PacketType.Rtp →
        pkt_send_notify s pt sz our =
          some (reverse_reconsideration
            { s with
                initial := false
                avg_rtcp_size := updateAvgPacketSize s sz })) := by
  refine ⟨?_, ?_, ?_, ?_⟩
  · intro s' hs'
    by_cases hpt : pt = some PacketType.Rtp
    · subst hpt
      cases hl : lookupMember s.member_table our with
      | none =>
          rw [pkt_send_notify_rtp_absent s sz our hl] at hs'
          cases hs'
      | some m =>
          rw [pkt_send_notify_rtp_present s sz our m hl] at hs'
          obtain rfl := Option.some.inj hs'.symm
          exact ⟨rr_initial _, rr_avg _⟩
    · rw [pkt_send_notify_not_rtp s pt sz our hpt] at hs'
      obtain rfl := Option.some.inj hs'.symm
      exact ⟨rr_initial _, rr_avg _⟩
  · intro hpt hl
    subst hpt
    exact pkt_send_notify_rtp_absent s sz our hl
  · intro m hpt hl hws
    subst hpt
    rw [pkt_send_notify_rtp_present s sz our m hl, hws]
    simp
  · intro hpt
    exact pkt_send_notify_not_rtp s pt sz our hpt

/-- Witness for C8 at `baseState`: a first Rtp send with the local member
present. -/
theorem C8_send_handling_witness :
    lookupMember baseState.member_table 1 =
        some ⟨1, none, some MemberState.Listening, 0⟩ ∧
    baseState.we_sent = false ∧
    pkt_send_notify baseState (some PacketType.Rtp) 100 1 =
      some (reverse_reconsideration
        { baseState with
            initial := false
            avg_rtcp_size := updateAvgPacketSize baseState 100
            we_sent := true
            senders := baseState.senders + 1
            member_table := insertMember baseState.member_table 1
              { (⟨1, none, some MemberState.Listening, 0⟩ : Member) with
                  intervals := 0 } }) :=
  ⟨by decide, by decide,
   (C8_send_handling baseState (some PacketType.Rtp) 100 1).2.2.1
     ⟨1, none, some MemberState.Listening, 0⟩ rfl (by decide) (by decide)⟩

/-- Claim C9 (amended): the end-to-end scenario.  After initialization
members = 1, senders = 0, avg_rtcp_size = 200; after Rtp from Ssrc 2,
members = 2, senders = 1 and member 2 is Sending; after a Bye from Ssrc 2,
member 2 is Bye, members = 1 and senders = 0 — but `pmembers` is 1 from
initialization (not 2), so `members < pmembers` does not hold at the
reconsideration point and `tn`, `tp` and `pmembers` are left unchanged
(`pmembers` remains 1). -/
theorem C9_amended :
    baseState.members = 1 ∧ baseState.senders = 0 ∧
    baseState.avg_rtcp_size = ofInt 200 ∧
    s9b.members = 2 ∧ s9b.senders = 1 ∧
    (lookupMember s9b.member_table 2).map Member.status =
      some (some MemberState.Sending) ∧
    (lookupMember s9c.member_table 2).map Member.status =
      some (some MemberState.Bye) ∧
    s9c.members = 1 ∧ s9c.senders = 0 ∧
    s9b.pmembers = 1 ∧
    ¬ ((byeUpdate s9b 2).members < (byeUpdate s9b 2).pmembers) ∧
    s9c.tn = s9b.tn ∧ s9c.tp = s9b.tp ∧ s9c.pmembers = 1 := by decide

/-- Counterexample to C9 as stated: at the reconsideration point after the
Bye, members = pmembers = 1 (pmembers was never snapshotted to 2), so the
claimed `members < pmembers` rescale is not triggered and `tn`, `tp` are
untouched. -/
theorem C9_counterexample :
    (byeUpdate s9b 2).members = 1 ∧
    (byeUpdate s9b 2).pmembers = 1 ∧
    ¬ ((byeUpdate s9b 2).members < (byeUpdate s9b 2).pmembers) ∧
    s9c.tn = s9b.tn ∧ s9c.tp = s9b.tp := by decide

/-- Claim C10: after initialization and after every completed sequence of
handler invocations, `members >= pmembers`. -/
theorem C10_members_ge_pmembers (our : Ssrc) (bw ps now : Int) (q : Frac)
    (events : List Event) (s : State)
    (hrun : run our (initSession our bw ps now q) events = some s) :
    s.pmembers ≤ s.members :=
  run_pmembers_le our events (initSession our bw ps now q) s
    (le_refl 1) hrun

/-- Witness for C10 at the freshly initialized session. -/
theorem C10_members_ge_pmembers_witness :
    (initSession 1 8000 200 0 (ofInt 0)).pmembers ≤
      (initSession 1 8000 200 0 (ofInt 0)).members :=
  C10_members_ge_pmembers 1 8000 200 0 (ofInt 0) [] _ rfl

end Rtcp
